import Mathlib

/-!
Verification development for the data-lineage graph engine
(`src/services/lineage_service.py` together with the data model in
`src/models/lineage.py`).

The Python service is shallowly embedded: pydantic models become Lean
structures, the in-memory `LineageService` state becomes the `Store`
structure, and each service method becomes a pure function.  Methods that
mutate (or could mutate) the service state are modelled with explicit state
passing (`Store → ... → Store × α`); methods that can raise an exception
the caller observes are modelled with `Except String α`.  Wall-clock fields
(`execution_time_ms`, `datetime.now()` timestamps) are not modelled: run
timestamps are carried as opaque strings, which is enough because the code
only ever copies them around.  Python dictionaries are modelled as
association lists with dict-update semantics (assignment to an existing key
keeps its position, a new key is appended), which matches CPython's
insertion-ordered dicts.
-/

/-- A field of a dataset schema: `(name, type)` pair, modelling the
`{"name": ..., "type": ...}` dictionaries stored in `schema_fields`. -/
abbrev SchemaField := String × String

/-- Model of `LineageDataset` (`src/models/lineage.py`).  The Python field
`namespace` is called `nspace` here because `namespace` is a Lean keyword;
the enum `DatasetType` is carried as its `.value` string, which is how the
service itself consumes it (`dataset.type.value`).  `properties` values are
carried as strings. -/
structure LineageDataset where
  nspace : String
  name : String
  type : String
  schema_fields : Option (List SchemaField)
  properties : List (String × String)
deriving DecidableEq

/-- `LineageDataset.qualified_name`: `namespace + "." + name`. -/
def LineageDataset.qualified_name (d : LineageDataset) : String :=
  d.nspace ++ "." ++ d.name

/-- Model of `LineageJob` (`src/models/lineage.py`). -/
structure LineageJob where
  nspace : String
  name : String
  type : String
  description : Option String
  properties : List (String × String)
deriving DecidableEq

/-- `LineageJob.qualified_name`: `namespace + "." + name`. -/
def LineageJob.qualified_name (j : LineageJob) : String :=
  j.nspace ++ "." ++ j.name

/-- Model of `LineageRun` (`src/models/lineage.py`).  `run_id` is the
stringified UUID, `status` the `LineageEventType` value string, and the
timestamps the ISO strings the service copies onto graph edges. -/
structure LineageRun where
  run_id : String
  job : LineageJob
  status : String
  started_at : String
  ended_at : Option String
  input_datasets : List LineageDataset
  output_datasets : List LineageDataset
  properties : List (String × String)
deriving DecidableEq

/-- Model of `ColumnLineage` (`src/models/lineage.py`). -/
structure ColumnLineage where
  source_dataset : String
  source_column : String
  target_dataset : String
  target_column : String
  transformation : Option String
  job_name : String
deriving DecidableEq

/-- Attribute record attached to a graph node by `_build_graph`.  Dataset
nodes carry `type="dataset", dataset_type, namespace, properties`; job nodes
carry `type="job", job_type, namespace, description, properties`.  A `none`
payload models a bare node auto-created by `networkx.add_edge` for a
qualified name that was never registered. -/
inductive NodeData where
  | dataset (dataset_type : String) (nspace : String)
      (properties : List (String × String)) : NodeData
  | job (job_type : String) (nspace : String) (description : Option String)
      (properties : List (String × String)) : NodeData
deriving DecidableEq

/-- A directed edge of the lineage graph with the attributes `_build_graph`
sets: `type` (`"input"` or `"output"`), `run_id` and `timestamp`. -/
structure GEdge where
  source : String
  target : String
  etype : String
  run_id : String
  timestamp : String
deriving DecidableEq

/-- Model of the `networkx.DiGraph` owned by the service: nodes in insertion
order with their attribute payload, and attributed directed edges.
`networkx` stores at most one edge per ordered node pair; repeated
`add_edge` calls update the attributes in place. -/
structure NxGraph where
  nodes : List (String × Option NodeData)
  edges : List GEdge
deriving DecidableEq

/-- The graph with no nodes and no edges (`nx.DiGraph()` / `graph.clear()`). -/
def NxGraph.empty : NxGraph := { nodes := [], edges := [] }

/-- The keys of the graph's node set. -/
def NxGraph.node_keys (g : NxGraph) : List String := g.nodes.map Prod.fst

/-- `networkx.add_node`: an existing node keeps its position and gets the
new attribute payload, a new node is appended.  (The attribute-dictionary
merge of `networkx` is collapsed to last-writer-wins over the fields
modelled in `NodeData`; no claim reads merged attributes.) -/
def NxGraph.add_node (g : NxGraph) (k : String) (d : NodeData) : NxGraph :=
  if g.nodes.any (fun p => p.1 == k) then
    { g with nodes := g.nodes.map (fun p => if p.1 == k then (k, some d) else p) }
  else
    { g with nodes := g.nodes ++ [(k, some d)] }

/-- Ensure a node key exists, auto-creating a bare (attribute-free) node the
way `networkx.add_edge` does for unknown endpoints. -/
def NxGraph.ensure_node (g : NxGraph) (k : String) : NxGraph :=
  if g.nodes.any (fun p => p.1 == k) then g
  else { g with nodes := g.nodes ++ [(k, none)] }

/-- `networkx.add_edge`: both endpoints are materialized, and an existing
edge for the same ordered pair has its attributes replaced in place. -/
def NxGraph.add_edge (g : NxGraph) (e : GEdge) : NxGraph :=
  let g1 := (g.ensure_node e.source).ensure_node e.target
  if g1.edges.any (fun e2 => e2.source == e.source && e2.target == e.target) then
    { g1 with edges := g1.edges.map (fun e2 =>
        if e2.source == e.source && e2.target == e.target then e else e2) }
  else
    { g1 with edges := g1.edges ++ [e] }

/-- Model of the `LineageService` in-memory state: `self.datasets`,
`self.jobs` (insertion-ordered dicts keyed by qualified name), `self.runs`,
`self.graph` and `self.column_lineage`.  (`self.events` is never read or
written by any method and is omitted.) -/
structure Store where
  datasets : List (String × LineageDataset)
  jobs : List (String × LineageJob)
  runs : List LineageRun
  graph : NxGraph
  column_lineage : List ColumnLineage
deriving DecidableEq

/-- The service state before any registration. -/
def Store.empty : Store :=
  { datasets := [], jobs := [], runs := [], graph := NxGraph.empty,
    column_lineage := [] }

/-- Python dict assignment `m[k] = v`: an existing key keeps its position
and gets the new value; a new key is appended. -/
def dict_insert {α : Type} (k : String) (v : α) (l : List (String × α)) :
    List (String × α) :=
  if l.any (fun p => p.1 == k) then
    l.map (fun p => if p.1 == k then (k, v) else p)
  else l ++ [(k, v)]

/-- The key list of an association-list dict. -/
def dict_keys {α : Type} (l : List (String × α)) : List String := l.map Prod.fst

/-- `LineageService._build_graph`: clear the graph, add one node per stored
dataset, one node per stored job, then for every stored run add an
`input_dataset → job` edge per input and a `job → output_dataset` edge per
output, each carrying the run id and the run's start timestamp. -/
def build_graph (datasets : List (String × LineageDataset))
    (jobs : List (String × LineageJob)) (runs : List LineageRun) : NxGraph :=
  let g1 := datasets.foldl
    (fun g p => g.add_node p.2.qualified_name
      (NodeData.dataset p.2.type p.2.nspace p.2.properties)) NxGraph.empty
  let g2 := jobs.foldl
    (fun g p => g.add_node p.2.qualified_name
      (NodeData.job p.2.type p.2.nspace p.2.description p.2.properties)) g1
  runs.foldl
    (fun g r =>
      let jn := r.job.qualified_name
      let g3 := r.input_datasets.foldl
        (fun g ds => g.add_edge
          { source := ds.qualified_name, target := jn, etype := "input",
            run_id := r.run_id, timestamp := r.started_at }) g
      r.output_datasets.foldl
        (fun g ds => g.add_edge
          { source := jn, target := ds.qualified_name, etype := "output",
            run_id := r.run_id, timestamp := r.started_at }) g3) g2

/-- `LineageService.add_dataset`: upsert the dataset under its qualified
name.  The graph is not touched. -/
def add_dataset (st : Store) (d : LineageDataset) : Store :=
  { st with datasets := dict_insert d.qualified_name d st.datasets }

/-- `LineageService.add_job`: upsert the job under its qualified name.  The
graph is not touched. -/
def add_job (st : Store) (j : LineageJob) : Store :=
  { st with jobs := dict_insert j.qualified_name j st.jobs }

/-- `LineageService.add_run`: append the run, then rebuild the whole graph
from the current datasets, jobs and runs. -/
def add_run (st : Store) (r : LineageRun) : Store :=
  let runs := st.runs ++ [r]
  { st with runs := runs, graph := build_graph st.datasets st.jobs runs }

/-- Case-insensitive substring test, modelling Python's
`needle.lower() in hay.lower()`: lower-case both character sequences and
test list-infix containment. -/
def str_contains (needle hay : String) : Bool :=
  decide (needle.data.map Char.toLower <:+: hay.data.map Char.toLower)

/-- Model of `LineageQueryRequest` with its pydantic defaults
(`direction="both"`, `depth=3`, `include_schema=True`).  `depth` is a `Nat`:
the Python `int` is only ever consumed by `range(depth)`, for which every
non-positive value behaves like `0`. -/
structure LineageQueryRequest where
  dataset_name : Option String
  job_name : Option String
  direction : String
  depth : Nat
  include_schema : Bool
deriving DecidableEq

/-- Python truthiness of an optional string field: `None` and `""` are both
falsy (`if request.dataset_name:`). -/
def opt_name (o : Option String) : Option String :=
  match o with
  | some s => if s = "" then none else some s
  | none => none

/-- `LineageService._get_start_nodes`: every key of the datasets dict that
contains the (truthy) `dataset_name` as a case-insensitive substring, united
with every key of the jobs dict that contains the (truthy) `job_name`. -/
def get_start_nodes (st : Store) (req : LineageQueryRequest) : Finset String :=
  (match opt_name req.dataset_name with
   | some dn => ((dict_keys st.datasets).filter (fun k => str_contains dn k)).toFinset
   | none => ∅) ∪
  (match opt_name req.job_name with
   | some jn => ((dict_keys st.jobs).filter (fun k => str_contains jn k)).toFinset
   | none => ∅)

/-- The predecessor set of a node set: every edge source whose target lies
in the set (`graph.predecessors(node)` unioned over the set). -/
def predsSet (g : NxGraph) (s : Finset String) : Finset String :=
  ((g.edges.filter (fun e => decide (e.target ∈ s))).map GEdge.source).toFinset

/-- The successor set of a node set: every edge target whose source lies in
the set (`graph.successors(node)` unioned over the set). -/
def succsSet (g : NxGraph) (s : Finset String) : Finset String :=
  ((g.edges.filter (fun e => decide (e.source ∈ s))).map GEdge.target).toFinset

/-- The inner iterations (`d > 0`) of the per-start-node expansion loop of
`_find_connected_nodes`: with `k` iterations left and accumulated set `ups`,
compute `current_level` from the whole accumulated set, stop if it is empty,
otherwise merge it and continue. -/
def step_expand (F : Finset String → Finset String) :
    Nat → Finset String → Finset String
  | 0, ups => ups
  | k + 1, ups =>
    if F ups = ∅ then ups else step_expand F k (ups ∪ F ups)

/-- One full directional expansion of `_find_connected_nodes` for a single
start node: the `d = 0` iteration expands from `{start_node}`, every later
iteration expands from the accumulated set. -/
def find_directional (F : Finset String → Finset String) (s : String)
    (depth : Nat) : Finset String :=
  match depth with
  | 0 => ∅
  | k + 1 => if F {s} = ∅ then ∅ else step_expand F k (F {s})

/-- `LineageService._find_connected_nodes`: the start nodes together with,
for each start node, the upstream expansion (for `upstream`/`both`) and the
downstream expansion (for `downstream`/`both`). -/
def find_connected_nodes (g : NxGraph) (start : Finset String)
    (direction : String) (depth : Nat) : Finset String :=
  start ∪ start.biUnion (fun s =>
    (if direction = "upstream" ∨ direction = "both"
     then find_directional (predsSet g) s depth else ∅) ∪
    (if direction = "downstream" ∨ direction = "both"
     then find_directional (succsSet g) s depth else ∅))

/-- `_find_connected_nodes` with its exception behavior:
`graph.predecessors` / `graph.successors` raise a `networkx` error as soon
as they are asked about a node that is not in the graph, which happens
exactly when the depth is positive, the direction triggers at least one
expansion pass, and some start node is missing from the graph.  (Every
non-start reach_frontier node is an edge endpoint and hence always present.) -/
def find_connected_nodes_exc (g : NxGraph) (start : Finset String)
    (direction : String) (depth : Nat) : Except String (Finset String) :=
  if 1 ≤ depth ∧
      (direction = "upstream" ∨ direction = "downstream" ∨ direction = "both") ∧
      ¬ (∀ s ∈ start, s ∈ g.node_keys) then
    Except.error "node not in digraph"
  else
    Except.ok (find_connected_nodes g start direction depth)

/-- Model of `LineageGraph`: the subgraph payload of a query response. -/
structure LineageGraph where
  datasets : List (String × LineageDataset)
  jobs : List (String × LineageJob)
  runs : List LineageRun
  relationships : List GEdge
deriving DecidableEq

/-- The empty `LineageGraph()` returned when no start node matches. -/
def LineageGraph.empty : LineageGraph :=
  { datasets := [], jobs := [], runs := [], relationships := [] }

/-- Model of `LineageQueryResponse` (without the wall-clock
`execution_time_ms` field, which is not modelled). -/
structure LineageQueryResponse where
  query : LineageQueryRequest
  graph : LineageGraph
  total_datasets : Nat
  total_jobs : Nat
deriving DecidableEq

/-- `LineageService._build_subgraph`, with explicit state passing for the
frame property (the method only reads `self`, so the store is returned
unchanged).  A connected node that is a dataset key is emitted as a copy of
the stored record, with `schema_fields` cleared when `include_schema` is
false; a node that is only a job key is emitted as the stored job (the
`elif` makes the dataset dict take precedence for a shared name);
relationships are the stored edges with both endpoints connected; runs are
the stored runs whose job is connected.  The Python loop iterates the node
set in unspecified order; the model fixes the stored dict order, which maps
the same keys to the same records. -/
def build_subgraph (st : Store) (nodes : Finset String)
    (include_schema : Bool) : Store × LineageGraph :=
  (st,
   { datasets := (st.datasets.filter (fun p => decide (p.1 ∈ nodes))).map
       (fun p => (p.1, if include_schema then p.2
                       else { p.2 with schema_fields := none })),
     jobs := st.jobs.filter (fun p =>
       decide (p.1 ∈ nodes ∧ p.1 ∉ dict_keys st.datasets)),
     runs := st.runs.filter (fun r =>
       decide (r.job.qualified_name ∈ nodes)),
     relationships := st.graph.edges.filter (fun e =>
       decide (e.source ∈ nodes ∧ e.target ∈ nodes)) })

/-- The attribute access `request.entity_name` that `query_lineage`
performs inside its opening logging call (`lineage_service.py` line 281),
before the `try:` block and before any other work.  `LineageQueryRequest`
declares no `entity_name` field and no extra-attribute configuration, so
pydantic raises `AttributeError` for every request. -/
def entity_name_attr (_req : LineageQueryRequest) : Except String String :=
  Except.error "AttributeError: LineageQueryRequest has no attribute entity_name"

/-- The body of `LineageService.query_lineage` after the opening logging
call (`lineage_service.py` lines 287-340): resolve start nodes; when none
match, return the empty response; otherwise traverse, build the subgraph,
and count the connected nodes that are dataset keys / job keys.  In the
source as written this code is unreachable, because the logging call that
precedes it raises (see `entity_name_attr`). -/
def query_lineage_unlogged (st : Store) (req : LineageQueryRequest) :
    Except String LineageQueryResponse :=
  if get_start_nodes st req = ∅ then
    Except.ok { query := req, graph := LineageGraph.empty,
                total_datasets := 0, total_jobs := 0 }
  else
    match find_connected_nodes_exc st.graph (get_start_nodes st req)
        req.direction req.depth with
    | Except.error e => Except.error e
    | Except.ok connected =>
      Except.ok
        { query := req,
          graph := (build_subgraph st connected req.include_schema).2,
          total_datasets :=
            (connected.filter (fun n => n ∈ dict_keys st.datasets)).card,
          total_jobs :=
            (connected.filter (fun n => n ∈ dict_keys st.jobs)).card }

/-- `LineageService.query_lineage` as it actually executes: the opening
logging call evaluates `request.entity_name` first, which raises
`AttributeError` (see `entity_name_attr`), so the method errors before
start-node resolution on every call; the rest of the method is
`query_lineage_unlogged`. -/
def query_lineage (st : Store) (req : LineageQueryRequest) :
    Except String LineageQueryResponse :=
  match entity_name_attr req with
  | Except.error e => Except.error e
  | Except.ok _ => query_lineage_unlogged st req

/-- The dictionary returned by `get_dataset_impact_analysis`: either the
`{"error": "Dataset not found"}` dictionary or the full report. -/
inductive ImpactResult where
  | notFound : ImpactResult
  | report (dataset : String) (affected_datasets : Int) (affected_jobs : Nat)
      (downstream_datasets : List String) (downstream_jobs : List String)
      (risk_level : String) : ImpactResult
deriving DecidableEq

/-- `LineageService.get_dataset_impact_analysis`: exact-key existence check,
then a `downstream, depth=10` lineage query; `affected_datasets` is the size
of the response's dataset map minus one, `affected_jobs` the size of its job
map; risk is `high` above 5, `medium` above 2, else `low`.  The store is
returned unchanged (the method only reads), and a traversal exception
propagates. -/
def get_dataset_impact_analysis (st : Store) (dataset_name : String) :
    Store × Except String ImpactResult :=
  if dataset_name ∈ dict_keys st.datasets then
    match query_lineage st
        { dataset_name := some dataset_name, job_name := none,
          direction := "downstream", depth := 10, include_schema := true } with
    | Except.error e => (st, Except.error e)
    | Except.ok res =>
      (st, Except.ok (ImpactResult.report dataset_name
        ((res.graph.datasets.length : Int) - 1)
        res.graph.jobs.length
        (res.graph.datasets.map Prod.fst) (res.graph.jobs.map Prod.fst)
        (if 5 < (res.graph.datasets.length : Int) - 1 then "high"
         else if 2 < (res.graph.datasets.length : Int) - 1 then "medium"
         else "low")))
  else (st, Except.ok ImpactResult.notFound)

/-- Modelled rendering of `_export_json`.  The claims only concern the
dispatch behavior of `export_lineage_graph`, not the serialized text, so the
JSON dump is abstracted to a deterministic rendering of the store's keys. -/
def export_json (st : Store) : String :=
  String.intercalate "," (dict_keys st.datasets ++ dict_keys st.jobs
    ++ st.runs.map LineageRun.run_id)

/-- Modelled rendering of `_export_graphml` (full internal graph; text
content abstracted, see `export_json`). -/
def export_graphml (st : Store) : String :=
  String.intercalate "," (st.graph.node_keys
    ++ st.graph.edges.map (fun e => e.source ++ ">" ++ e.target))

/-- Modelled rendering of `_export_dot` (full internal graph; text content
abstracted, see `export_json`). -/
def export_dot (st : Store) : String :=
  String.intercalate ";" (st.graph.node_keys
    ++ st.graph.edges.map (fun e => e.source ++ ">" ++ e.target))

/-- `LineageService.export_lineage_graph`: dispatch on the format string;
an unrecognized format raises `ValueError(f"Unsupported format: {format}")`,
modelled as `Except.error`.  The store is returned unchanged (the method
only reads). -/
def export_lineage_graph (st : Store) (format : String) :
    Store × Except String String :=
  if format = "json" then (st, Except.ok (export_json st))
  else if format = "graphml" then (st, Except.ok (export_graphml st))
  else if format = "dot" then (st, Except.ok (export_dot st))
  else (st, Except.error ("Unsupported format: " ++ format))

/-- Demo dataset `production.customers` (`DEMO_DATASETS`). -/
def demo_customers : LineageDataset :=
  { nspace := "production", name := "customers", type := "table",
    schema_fields := some [("customer_id", "INTEGER"), ("email", "VARCHAR(255)"),
      ("first_name", "VARCHAR(100)"), ("last_name", "VARCHAR(100)")],
    properties := [("source", "postgresql"), ("location", "customers_table")] }

/-- Demo dataset `production.orders` (`DEMO_DATASETS`). -/
def demo_orders : LineageDataset :=
  { nspace := "production", name := "orders", type := "table",
    schema_fields := some [("order_id", "INTEGER"), ("customer_id", "INTEGER"),
      ("order_total", "DECIMAL(10,2)"), ("order_date", "DATE")],
    properties := [("source", "postgresql"), ("location", "orders_table")] }

/-- Demo dataset `analytics.customer_analytics` (`DEMO_DATASETS`). -/
def demo_analytics : LineageDataset :=
  { nspace := "analytics", name := "customer_analytics", type := "table",
    schema_fields := some [("customer_id", "INTEGER"), ("total_orders", "INTEGER"),
      ("total_spent", "DECIMAL(12,2)"), ("last_order_date", "DATE")],
    properties := [("source", "data_warehouse"),
      ("location", "customer_analytics_view")] }

/-- Demo job `etl.customer_data_sync` (`DEMO_JOBS`). -/
def demo_sync_job : LineageJob :=
  { nspace := "etl", name := "customer_data_sync", type := "etl",
    description := some "Sync customer data from operational database",
    properties := [("schedule", "hourly"), ("owner", "data-team")] }

/-- Demo job `analytics.customer_analytics_pipeline` (`DEMO_JOBS`). -/
def demo_pipeline_job : LineageJob :=
  { nspace := "analytics", name := "customer_analytics_pipeline",
    type := "transform",
    description := some "Generate customer analytics from raw data",
    properties := [("schedule", "daily"), ("owner", "analytics-team")] }

/-- Demo run 1 (`_create_demo_relationships`): `customer_data_sync` with no
inputs and output `[production.customers]`.  The UUID and timestamps are
nondeterministic in the source and carried as opaque strings. -/
def demo_run1 : LineageRun :=
  { run_id := "run-1", job := demo_sync_job, status := "COMPLETE",
    started_at := "t1", ended_at := some "t1e", input_datasets := [],
    output_datasets := [demo_customers],
    properties := [("records_processed", "10000"), ("execution_time", "300")] }

/-- Demo run 2 (`_create_demo_relationships`):
`customer_analytics_pipeline` with inputs
`[production.customers, production.orders]` and output
`[analytics.customer_analytics]`. -/
def demo_run2 : LineageRun :=
  { run_id := "run-2", job := demo_pipeline_job, status := "COMPLETE",
    started_at := "t2", ended_at := some "t2e",
    input_datasets := [demo_customers, demo_orders],
    output_datasets := [demo_analytics],
    properties := [("records_processed", "5000"), ("execution_time", "600")] }

/-- The Scenario A store: the demo datasets, jobs and the two demo runs
registered through the ingestion operations, exactly the state
`_init_demo_data` leaves behind (minus the column lineage, which no lineage
query reads). -/
def scenario_store : Store :=
  add_run
    (add_run
      (add_job
        (add_job
          (add_dataset (add_dataset (add_dataset Store.empty demo_customers)
            demo_orders) demo_analytics)
          demo_sync_job)
        demo_pipeline_job)
      demo_run1)
    demo_run2

/-- The Scenario A upstream query of the spec. -/
def scenario_a_request : LineageQueryRequest :=
  { dataset_name := some "customer_analytics", job_name := none,
    direction := "upstream", depth := 2, include_schema := true }

/-- The Scenario B query of the spec: `dataset_name="ghost"`, which matches
no stored key. -/
def ghost_request : LineageQueryRequest :=
  { dataset_name := some "ghost", job_name := none, direction := "both",
    depth := 3, include_schema := true }


deriving instance DecidableEq for Except

/-- Start-node resolution as the specification words it: every *graph node*
(whether it carries dataset or job attributes) whose qualified name contains
the request's `dataset_name` as a case-insensitive substring, united with
every graph node whose qualified name contains the request's `job_name`. -/
def claim_start_nodes (st : Store) (req : LineageQueryRequest) : Finset String :=
  (match opt_name req.dataset_name with
   | some dn => (st.graph.node_keys.filter (fun k => str_contains dn k)).toFinset
   | none => ∅) ∪
  (match opt_name req.job_name with
   | some jn => (st.graph.node_keys.filter (fun k => str_contains jn k)).toFinset
   | none => ∅)

/-- The exact-length reachability frontier: `reach_frontier F s i` is the
`i`-th frontier of the frontier-only expansion that starts at `{s}` and
applies the one-step neighbour map `F` (`predsSet g` or `succsSet g`) to the
previous frontier only. -/
def reach_frontier (F : Finset String → Finset String) (s : String) :
    Nat → Finset String
  | 0 => {s}
  | i + 1 => F (reach_frontier F s i)

/-- `levels F s j k` is the union of frontiers `j+1, ..., j+k`: the nodes
the frontier-only expansion discovers strictly after level `j` and within
`k` more levels. -/
def levels (F : Finset String → Finset String) (s : String) :
    Nat → Nat → Finset String
  | _, 0 => ∅
  | j, k + 1 => reach_frontier F s (j + 1) ∪ levels F s (j + 1) k

/-- The reference frontier-only bounded expansion as the specification
words it: from the current frontier compute the next frontier from that
frontier only, stop early when it is empty, and union all levels
produced. -/
def frontier_expand (F : Finset String → Finset String) :
    Nat → Finset String → Finset String
  | 0, _ => ∅
  | k + 1, fr =>
    if F fr = ∅ then ∅ else F fr ∪ frontier_expand F k (F fr)

/-- The reference connected set of the specification: the start nodes
united, per start node, with the frontier-only bounded expansion along
predecessors (for `upstream`/`both`) and along successors (for
`downstream`/`both`). -/
def reference_connected (g : NxGraph) (start : Finset String)
    (direction : String) (depth : Nat) : Finset String :=
  start ∪ start.biUnion (fun s =>
    (if direction = "upstream" ∨ direction = "both"
     then frontier_expand (predsSet g) depth {s} else ∅) ∪
    (if direction = "downstream" ∨ direction = "both"
     then frontier_expand (succsSet g) depth {s} else ∅))

/-- `x` is reachable from `s` in at most `k` steps of the one-step
neighbour map `F`; equivalently, the shortest directed distance from `s` to
`x` following `F` is at most `k` hops. -/
def reachable_within (F : Finset String → Finset String) (s x : String)
    (k : Nat) : Prop :=
  ∃ i, i ≤ k ∧ x ∈ reach_frontier F s i

/-- Dataset `a.b` of the impact-analysis counterexample store. -/
def ds_ab : LineageDataset :=
  { nspace := "a", name := "b", type := "table", schema_fields := none,
    properties := [] }

/-- Dataset `a.bb` of the impact-analysis counterexample store; its
qualified name contains `"a.b"` as a substring. -/
def ds_abb : LineageDataset :=
  { nspace := "a", name := "bb", type := "table", schema_fields := none,
    properties := [] }

/-- Dataset `c.d` of the impact-analysis counterexample store. -/
def ds_cd : LineageDataset :=
  { nspace := "c", name := "d", type := "table", schema_fields := none,
    properties := [] }

/-- Job `j.x` of the impact-analysis counterexample store. -/
def job_jx : LineageJob :=
  { nspace := "j", name := "x", type := "etl", description := none,
    properties := [] }

/-- The run of the impact-analysis counterexample store: `j.x` reads `a.bb`
and writes `c.d`. -/
def run_jx : LineageRun :=
  { run_id := "r1", job := job_jx, status := "COMPLETE", started_at := "t0",
    ended_at := none, input_datasets := [ds_abb], output_datasets := [ds_cd],
    properties := [] }

/-- A store on which impact analysis of `a.b` pulls in the unrelated
downstream of `a.bb`, because start-node resolution matches by substring. -/
def impact_cex_store : Store :=
  add_run
    (add_job (add_dataset (add_dataset (add_dataset Store.empty ds_ab) ds_abb)
      ds_cd) job_jx)
    run_jx






theorem reach_frontier_add_empty {F : Finset String → Finset String}
    {s : String} {a : Nat} (h0 : F ∅ = ∅)
    (h : reach_frontier F s a = ∅) :
    ∀ k, reach_frontier F s (a + k) = ∅ := by
  intro k
  induction k with
  | zero => simpa using h
  | succ k ih =>
    show F (reach_frontier F s (a + k)) = ∅
    rw [ih, h0]

theorem mem_levels {F : Finset String → Finset String} {s : String}
    (x : String) :
    ∀ (k j : Nat), x ∈ levels F s j k ↔
      ∃ i, 1 ≤ i ∧ i ≤ k ∧ x ∈ reach_frontier F s (j + i) := by
  intro k
  induction k with
  | zero =>
    intro j
    simp only [levels, Finset.not_mem_empty, false_iff, not_exists]
    intro i hi
    omega
  | succ k ih =>
    intro j
    simp only [levels, Finset.mem_union, ih]
    constructor
    · rintro (hx | ⟨i, h1, h2, hx⟩)
      · exact ⟨1, le_refl 1, by omega, hx⟩
      · refine ⟨i + 1, by omega, by omega, ?_⟩
        rw [show j + (i + 1) = j + 1 + i by omega]
        exact hx
    · rintro ⟨i, h1, h2, hx⟩
      by_cases hone : i = 1
      · left
        subst hone
        exact hx
      · right
        refine ⟨i - 1, by omega, by omega, ?_⟩
        rw [show j + 1 + (i - 1) = j + i by omega]
        exact hx

theorem levels_eq_empty {F : Finset String → Finset String} {s : String}
    {j : Nat} (h0 : F ∅ = ∅) (h : reach_frontier F s (j + 1) = ∅)
    (k : Nat) : levels F s j k = ∅ := by
  ext x
  simp only [mem_levels, Finset.not_mem_empty, iff_false, not_exists]
  rintro i ⟨h1, h2, hx⟩
  have he : reach_frontier F s (j + i) = ∅ := by
    have := reach_frontier_add_empty h0 h (i - 1)
    rwa [show j + 1 + (i - 1) = j + i by omega] at this
  rw [he] at hx
  exact absurd hx (Finset.not_mem_empty x)

theorem F_levels {F : Finset String → Finset String} {s : String}
    (hU : ∀ a b, F (a ∪ b) = F a ∪ F b) (h0 : F ∅ = ∅) :
    ∀ (k j : Nat), F (levels F s j k) = levels F s (j + 1) k := by
  intro k
  induction k with
  | zero => intro j; simpa [levels] using h0
  | succ k ih =>
    intro j
    show F (reach_frontier F s (j + 1) ∪ levels F s (j + 1) k) = _
    rw [hU, ih]
    rfl

theorem levels_union {F : Finset String → Finset String} {s : String}
    {j k : Nat} (hk : 1 ≤ k) :
    levels F s j k ∪ levels F s (j + 1) k = levels F s j (k + 1) := by
  ext x
  simp only [Finset.mem_union, mem_levels]
  constructor
  · rintro (⟨i, h1, h2, hx⟩ | ⟨i, h1, h2, hx⟩)
    · exact ⟨i, h1, by omega, hx⟩
    · refine ⟨i + 1, by omega, by omega, ?_⟩
      rw [show j + (i + 1) = j + 1 + i by omega]
      exact hx
  · rintro ⟨i, h1, h2, hx⟩
    by_cases hik : i ≤ k
    · exact Or.inl ⟨i, h1, hik, hx⟩
    · refine Or.inr ⟨i - 1, by omega, by omega, ?_⟩
      rw [show j + 1 + (i - 1) = j + i by omega]
      exact hx

theorem levels_stall {F : Finset String → Finset String} {s : String}
    {m : Nat} (h0 : F ∅ = ∅) (hm : 1 ≤ m)
    (hc : levels F s 1 m = ∅) (t : Nat) (ht : m ≤ t) :
    levels F s 0 t = levels F s 0 m := by
  have hfr : reach_frontier F s (m + 1) = ∅ := by
    rw [Finset.eq_empty_iff_forall_not_mem]
    intro x hx
    have : x ∈ levels F s 1 m := by
      rw [mem_levels]
      refine ⟨m, hm, le_refl m, ?_⟩
      rwa [show 1 + m = m + 1 by omega]
    rw [hc] at this
    exact absurd this (Finset.not_mem_empty x)
  ext x
  simp only [mem_levels]
  constructor
  · rintro ⟨i, h1, h2, hx⟩
    refine ⟨i, h1, ?_, hx⟩
    by_contra hgt
    have he : reach_frontier F s (0 + i) = ∅ := by
      have := reach_frontier_add_empty h0 hfr (i - (m + 1))
      rwa [show m + 1 + (i - (m + 1)) = 0 + i by omega] at this
    rw [he] at hx
    exact absurd hx (Finset.not_mem_empty x)
  · rintro ⟨i, h1, h2, hx⟩
    exact ⟨i, h1, by omega, hx⟩

theorem step_expand_levels {F : Finset String → Finset String} {s : String}
    (hU : ∀ a b, F (a ∪ b) = F a ∪ F b) (h0 : F ∅ = ∅) :
    ∀ (k m : Nat), 1 ≤ m →
      step_expand F k (levels F s 0 m) = levels F s 0 (m + k) := by
  intro k
  induction k with
  | zero => intro m hm; rfl
  | succ k ih =>
    intro m hm
    simp only [step_expand]
    by_cases hc : F (levels F s 0 m) = ∅
    · rw [if_pos hc]
      have hc1 : levels F s 1 m = ∅ := by
        rw [show (1 : Nat) = 0 + 1 by omega, ← F_levels hU h0, hc]
      exact (levels_stall h0 hm hc1 (m + (k + 1)) (by omega)).symm
    · rw [if_neg hc]
      have hrw : levels F s 0 m ∪ F (levels F s 0 m) = levels F s 0 (m + 1) := by
        rw [F_levels hU h0, show (0 : Nat) + 1 = 1 by omega]
        exact levels_union hm
      rw [hrw, ih (m + 1) (by omega), show m + 1 + k = m + (k + 1) by omega]

theorem find_directional_eq_levels {F : Finset String → Finset String}
    {s : String} (hU : ∀ a b, F (a ∪ b) = F a ∪ F b) (h0 : F ∅ = ∅)
    (d : Nat) : find_directional F s d = levels F s 0 d := by
  cases d with
  | zero => rfl
  | succ k =>
    simp only [find_directional]
    by_cases hc : F {s} = ∅
    · rw [if_pos hc]
      have hfr : reach_frontier F s (0 + 1) = ∅ := hc
      exact (levels_eq_empty h0 hfr (k + 1)).symm
    · rw [if_neg hc]
      have h1 : (F {s} : Finset String) = levels F s 0 1 := by
        simp [levels, reach_frontier]
      rw [h1, step_expand_levels hU h0 k 1 (le_refl 1),
        show 1 + k = k + 1 by omega]

theorem frontier_expand_eq_levels {F : Finset String → Finset String}
    {s : String} (h0 : F ∅ = ∅) :
    ∀ (k m : Nat),
      frontier_expand F k (reach_frontier F s m) = levels F s m k := by
  intro k
  induction k with
  | zero => intro m; rfl
  | succ k ih =>
    intro m
    simp only [frontier_expand]
    by_cases hc : F (reach_frontier F s m) = ∅
    · rw [if_pos hc]
      exact (levels_eq_empty h0 hc (k + 1)).symm
    · rw [if_neg hc]
      show reach_frontier F s (m + 1) ∪
          frontier_expand F k (reach_frontier F s (m + 1)) = _
      rw [ih (m + 1)]
      rfl

theorem find_directional_eq_frontier_expand
    {F : Finset String → Finset String} {s : String}
    (hU : ∀ a b, F (a ∪ b) = F a ∪ F b) (h0 : F ∅ = ∅) (d : Nat) :
    find_directional F s d = frontier_expand F d {s} := by
  rw [find_directional_eq_levels hU h0]
  exact (frontier_expand_eq_levels h0 d 0).symm

theorem predsSet_union (g : NxGraph) (a b : Finset String) :
    predsSet g (a ∪ b) = predsSet g a ∪ predsSet g b := by
  ext x
  simp only [predsSet, List.mem_toFinset, List.mem_map, List.mem_filter,
    Finset.mem_union, decide_eq_true_eq]
  constructor
  · rintro ⟨e, ⟨he, hm⟩, rfl⟩
    rcases hm with hm | hm
    · exact Or.inl ⟨e, ⟨he, hm⟩, rfl⟩
    · exact Or.inr ⟨e, ⟨he, hm⟩, rfl⟩
  · rintro (⟨e, ⟨he, hm⟩, rfl⟩ | ⟨e, ⟨he, hm⟩, rfl⟩)
    · exact ⟨e, ⟨he, Or.inl hm⟩, rfl⟩
    · exact ⟨e, ⟨he, Or.inr hm⟩, rfl⟩

theorem predsSet_empty (g : NxGraph) : predsSet g ∅ = ∅ := by
  ext x
  simp [predsSet, List.mem_toFinset, List.mem_map, List.mem_filter]

theorem succsSet_union (g : NxGraph) (a b : Finset String) :
    succsSet g (a ∪ b) = succsSet g a ∪ succsSet g b := by
  ext x
  simp only [succsSet, List.mem_toFinset, List.mem_map, List.mem_filter,
    Finset.mem_union, decide_eq_true_eq]
  constructor
  · rintro ⟨e, ⟨he, hm⟩, rfl⟩
    rcases hm with hm | hm
    · exact Or.inl ⟨e, ⟨he, hm⟩, rfl⟩
    · exact Or.inr ⟨e, ⟨he, hm⟩, rfl⟩
  · rintro (⟨e, ⟨he, hm⟩, rfl⟩ | ⟨e, ⟨he, hm⟩, rfl⟩)
    · exact ⟨e, ⟨he, Or.inl hm⟩, rfl⟩
    · exact ⟨e, ⟨he, Or.inr hm⟩, rfl⟩

theorem succsSet_empty (g : NxGraph) : succsSet g ∅ = ∅ := by
  ext x
  simp [succsSet, List.mem_toFinset, List.mem_map, List.mem_filter]

/-- **C4.** For every graph, start-node set, direction and depth `d ≥ 1`,
the connected set computed by `_find_connected_nodes` (whose inner
iterations expand from the *cumulative* visited set) equals the reference
frontier-only bounded BFS of the specification: per start node, each next
level is the predecessor (resp. successor) set of the previous level's
frontier only, iterated for up to `d` levels with early stop on an empty
frontier, all levels, start nodes and (for `both`) both passes unioned. -/
theorem find_connected_nodes_eq_reference (g : NxGraph)
    (start : Finset String) (direction : String) (depth : Nat)
    (hd : 1 ≤ depth) :
    find_connected_nodes g start direction depth =
      reference_connected g start direction depth := by
  unfold find_connected_nodes reference_connected
  congr 1
  apply Finset.biUnion_congr rfl
  intro s _
  congr 1
  · by_cases h : direction = "upstream" ∨ direction = "both"
    · rw [if_pos h, if_pos h,
        find_directional_eq_frontier_expand (predsSet_union g)
          (predsSet_empty g)]
    · rw [if_neg h, if_neg h]
  · by_cases h : direction = "downstream" ∨ direction = "both"
    · rw [if_pos h, if_pos h,
        find_directional_eq_frontier_expand (succsSet_union g)
          (succsSet_empty g)]
    · rw [if_neg h, if_neg h]

/-- Witness for `find_connected_nodes_eq_reference` at the Scenario A
store's graph. -/
theorem find_connected_nodes_eq_reference_witness :
    1 ≤ 2 ∧
      find_connected_nodes scenario_store.graph
          {"analytics.customer_analytics"} "upstream" 2 =
        reference_connected scenario_store.graph
          {"analytics.customer_analytics"} "upstream" 2 :=
  ⟨by decide,
   find_connected_nodes_eq_reference scenario_store.graph
     {"analytics.customer_analytics"} "upstream" 2 (by decide)⟩

/-- **C5.** For every graph, start set, direction among
`upstream`/`downstream`/`both` and depth `k ≥ 1`, every node of the
traversal's connected set is, for some start node, reachable within `k`
hops following the traversal direction — so the set contains no node whose
shortest directed distance from every start node exceeds `k` hops. -/
theorem traversal_depth_bound (g : NxGraph) (start : Finset String)
    (direction : String) (depth : Nat) (x : String)
    (hdir : direction = "upstream" ∨ direction = "downstream" ∨
      direction = "both")
    (hd : 1 ≤ depth)
    (hx : x ∈ find_connected_nodes g start direction depth) :
    ∃ s ∈ start,
      (direction ≠ "downstream" ∧ reachable_within (predsSet g) s x depth) ∨
      (direction ≠ "upstream" ∧ reachable_within (succsSet g) s x depth) := by
  unfold find_connected_nodes at hx
  rw [Finset.mem_union] at hx
  rcases hx with hx | hx
  · refine ⟨x, hx, ?_⟩
    have hself : ∀ F : Finset String → Finset String,
        reachable_within F x x depth :=
      fun F => ⟨0, Nat.zero_le _, Finset.mem_singleton_self x⟩
    rcases hdir with h | h | h
    · exact Or.inl ⟨by rw [h]; decide, hself _⟩
    · exact Or.inr ⟨by rw [h]; decide, hself _⟩
    · exact Or.inl ⟨by rw [h]; decide, hself _⟩
  · rw [Finset.mem_biUnion] at hx
    obtain ⟨s, hs, hx⟩ := hx
    rw [Finset.mem_union] at hx
    refine ⟨s, hs, ?_⟩
    rcases hx with hx | hx
    · rw [apply_ite (x ∈ ·)] at hx
      split at hx
      case isTrue h =>
        refine Or.inl ⟨?_, ?_⟩
        · rcases h with h | h <;> (rw [h]; decide)
        · rw [find_directional_eq_levels (predsSet_union g)
            (predsSet_empty g)] at hx
          rw [mem_levels] at hx
          obtain ⟨i, h1, h2, hfr⟩ := hx
          exact ⟨i, h2, by simpa using hfr⟩
      case isFalse h => exact absurd hx (Finset.not_mem_empty x)
    · rw [apply_ite (x ∈ ·)] at hx
      split at hx
      case isTrue h =>
        refine Or.inr ⟨?_, ?_⟩
        · rcases h with h | h <;> (rw [h]; decide)
        · rw [find_directional_eq_levels (succsSet_union g)
            (succsSet_empty g)] at hx
          rw [mem_levels] at hx
          obtain ⟨i, h1, h2, hfr⟩ := hx
          exact ⟨i, h2, by simpa using hfr⟩
      case isFalse h => exact absurd hx (Finset.not_mem_empty x)

/-- Witness for `traversal_depth_bound`: `production.orders` is reached by
the Scenario A upstream query at depth 2. -/
theorem traversal_depth_bound_witness :
    ("upstream" = "upstream" ∨ "upstream" = "downstream" ∨
        "upstream" = "both") ∧
      1 ≤ 2 ∧
      "production.orders" ∈ find_connected_nodes scenario_store.graph
        {"analytics.customer_analytics"} "upstream" 2 ∧
      (∃ s ∈ ({"analytics.customer_analytics"} : Finset String),
        ("upstream" ≠ "downstream" ∧
          reachable_within (predsSet scenario_store.graph) s
            "production.orders" 2) ∨
        ("upstream" ≠ "upstream" ∧
          reachable_within (succsSet scenario_store.graph) s
            "production.orders" 2)) :=
  ⟨by decide, by decide, by decide,
   traversal_depth_bound scenario_store.graph
     {"analytics.customer_analytics"} "upstream" 2 "production.orders"
     (by decide) (by decide) (by decide)⟩

theorem mem_match_filter (o : Option String) (ks : List String) (x : String) :
    (x ∈ (match opt_name o with
          | some n => (ks.filter (fun k => str_contains n k)).toFinset
          | none => (∅ : Finset String))) ↔
      ∃ n, o = some n ∧ n ≠ "" ∧ x ∈ ks ∧ str_contains n x = true := by
  cases o with
  | none => simp [opt_name]
  | some s =>
    by_cases hs : s = ""
    · subst hs
      simp [opt_name]
    · simp [opt_name, hs, List.mem_toFinset, List.mem_filter]

/-- **C2 (amended).** Membership in the start-node set computed by
`_get_start_nodes`: `x` is a start node iff the request carries a non-empty
`dataset_name` that is a case-insensitive substring of `x` and `x` is a key
of the stored *datasets dict*, or the request carries a non-empty
`job_name` that is a case-insensitive substring of `x` and `x` is a key of
the stored *jobs dict*.  (Matching is against the two stored dicts, not
against the set of all graph nodes.) -/
theorem mem_get_start_nodes (st : Store) (req : LineageQueryRequest)
    (x : String) :
    x ∈ get_start_nodes st req ↔
      (∃ dn, req.dataset_name = some dn ∧ dn ≠ "" ∧
        x ∈ dict_keys st.datasets ∧ str_contains dn x = true) ∨
      (∃ jn, req.job_name = some jn ∧ jn ≠ "" ∧
        x ∈ dict_keys st.jobs ∧ str_contains jn x = true) := by
  unfold get_start_nodes
  rw [Finset.mem_union, mem_match_filter, mem_match_filter]

/-- **C2 (counterexample).** On the Scenario A store, the request
`dataset_name="customer"` resolves to the two matching *dataset* keys only,
whereas the claimed rule (match against all graph nodes) would also pull in
the two jobs whose qualified names contain `"customer"`. -/
theorem get_start_nodes_ne_claim_start_nodes :
    get_start_nodes scenario_store
        { dataset_name := some "customer", job_name := none,
          direction := "both", depth := 3, include_schema := true } ≠
      claim_start_nodes scenario_store
        { dataset_name := some "customer", job_name := none,
          direction := "both", depth := 3, include_schema := true } := by
  decide

/-- **C3 (amended).** The graph is a pure function of the store after every
`add_run` (which rebuilds it in full), while `add_dataset` and `add_job`
leave the graph untouched — so the rebuild invariant holds after run
insertions, not after every operation. -/
theorem graph_rebuilt_on_add_run (st : Store) (r : LineageRun)
    (d : LineageDataset) (j : LineageJob) :
    (add_run st r).graph =
        build_graph (add_run st r).datasets (add_run st r).jobs
          (add_run st r).runs ∧
      (add_dataset st d).graph = st.graph ∧
      (add_job st j).graph = st.graph :=
  ⟨rfl, rfl, rfl⟩

/-- **C3 (counterexample).** Registering the fresh dataset `a.b` on the
Scenario A store leaves the graph without a node for it, so the stored
graph differs from the graph rebuilt from the current store state. -/
theorem add_dataset_graph_stale :
    (add_dataset scenario_store ds_ab).graph ≠
      build_graph (add_dataset scenario_store ds_ab).datasets
        (add_dataset scenario_store ds_ab).jobs
        (add_dataset scenario_store ds_ab).runs := by
  decide

/-- **C6.** The claim says a query whose start-node resolution yields no
node returns the empty response without raising; in the source, however,
`query_lineage` evaluates `request.entity_name` in its opening logging call
before the empty-start early return is reachable, so Scenario B
(`dataset_name="ghost"`) raises `AttributeError` — even though start-node
resolution is indeed empty and the remainder of the method (lines 287-340)
would have returned exactly the claimed empty response with
`total_datasets = 0`, `total_jobs = 0`. -/
theorem ghost_query_attribute_error :
    query_lineage scenario_store ghost_request =
        Except.error
          "AttributeError: LineageQueryRequest has no attribute entity_name" ∧
      get_start_nodes scenario_store ghost_request = ∅ ∧
      query_lineage_unlogged scenario_store ghost_request =
        Except.ok { query := ghost_request, graph := LineageGraph.empty,
                    total_datasets := 0, total_jobs := 0 } :=
  ⟨rfl, by decide, by decide⟩

/-- **C7.** `export_lineage_graph` yields the `Unsupported format` value
error exactly for format strings outside `{json, graphml, dot}`, and the
store is returned unchanged (in particular on the error path). -/
theorem export_lineage_graph_error_iff (st : Store) (format : String) :
    ((∃ e, (export_lineage_graph st format).2 = Except.error e) ↔
      ¬ (format = "json" ∨ format = "graphml" ∨ format = "dot")) ∧
    (export_lineage_graph st format).1 = st := by
  unfold export_lineage_graph
  by_cases h1 : format = "json"
  · simp [h1]
  · by_cases h2 : format = "graphml"
    · simp [h1, h2]
    · by_cases h3 : format = "dot"
      · simp [h1, h2, h3]
      · simp [h1, h2, h3]

/-- **C10.** For every string that is not exactly a key of the datasets
dict, impact analysis returns the `Dataset not found` dictionary without
raising, runs no traversal, and leaves the store unchanged; the check is
exact key membership. -/
theorem impact_analysis_not_found (st : Store) (d : String)
    (h : d ∉ dict_keys st.datasets) :
    get_dataset_impact_analysis st d = (st, Except.ok ImpactResult.notFound) := by
  unfold get_dataset_impact_analysis
  rw [if_neg h]

/-- Witness for `impact_analysis_not_found`: `"customers"` is a substring
of the registered key `production.customers` but not itself a key, so the
substring-matching of lineage queries notwithstanding, impact analysis
reports `Dataset not found`. -/
theorem impact_analysis_not_found_witness :
    "customers" ∉ dict_keys scenario_store.datasets ∧
      get_dataset_impact_analysis scenario_store "customers" =
        (scenario_store, Except.ok ImpactResult.notFound) :=
  ⟨by decide,
   impact_analysis_not_found scenario_store "customers" (by decide)⟩

theorem lookup_filter_map (l : List (String × LineageDataset))
    (nodes : Finset String) (f : LineageDataset → LineageDataset)
    (n : String) :
    List.lookup n ((l.filter (fun p => decide (p.1 ∈ nodes))).map
        (fun p => (p.1, f p.2))) =
      if n ∈ nodes then (List.lookup n l).map f else none := by
  induction l with
  | nil =>
    simp only [List.filter_nil, List.map_nil, List.lookup_nil,
      Option.map_none']
    split <;> rfl
  | cons hd tl ih =>
    obtain ⟨k, v⟩ := hd
    by_cases hk : k ∈ nodes
    · by_cases hn : n = k
      · subst hn
        simp [List.filter_cons, hk, List.lookup]
      · have hbeq : (n == k) = false := beq_eq_false_iff_ne.mpr hn
        simp [List.filter_cons, hk, List.lookup, ih, hbeq]
    · by_cases hn : n = k
      · subst hn
        simp [List.filter_cons, hk, ih]
      · have hbeq : (n == k) = false := beq_eq_false_iff_ne.mpr hn
        simp [List.filter_cons, hk, List.lookup, ih, hbeq]

/-- **C9.** Subgraph extraction never mutates the store (its state result
is the input store), and its dataset map sends every connected dataset key
to a copy of the stored record whose `schema_fields` are cleared when
`include_schema` is false and kept intact when it is true; keys outside the
connected set (or not stored) are absent. -/
theorem build_subgraph_spec (st : Store) (nodes : Finset String) (b : Bool)
    (n : String) :
    (build_subgraph st nodes b).1 = st ∧
      List.lookup n (build_subgraph st nodes b).2.datasets =
        (if n ∈ nodes then
          (List.lookup n st.datasets).map
            (fun d => if b then d else { d with schema_fields := none })
         else none) := by
  refine ⟨rfl, ?_⟩
  show List.lookup n ((st.datasets.filter (fun p => decide (p.1 ∈ nodes))).map
      (fun p => (p.1, if b then p.2 else { p.2 with schema_fields := none }))) = _
  exact lookup_filter_map st.datasets nodes
    (fun d => if b then d else { d with schema_fields := none }) n

/-- **C8 (counterexample).** Scenario C as claimed is false of the code: on
the Scenario A store, `get_dataset_impact_analysis("production.customers")`
takes the dataset-found branch, calls `query_lineage`, and propagates its
`AttributeError` instead of returning the claimed report
`affected_datasets = 1, affected_jobs = 1, risk "low"`. -/
theorem impact_analysis_scenario_c_counterexample :
    (get_dataset_impact_analysis scenario_store "production.customers").2 =
        Except.error
          "AttributeError: LineageQueryRequest has no attribute entity_name" ∧
      (get_dataset_impact_analysis scenario_store "production.customers").2 ≠
        Except.ok (ImpactResult.report "production.customers" 1 1
          ["production.customers", "analytics.customer_analytics"]
          ["analytics.customer_analytics_pipeline"] "low") :=
  ⟨rfl, by decide⟩

/-- **C8 (amended).** For every dataset name registered in the store,
`get_dataset_impact_analysis` never returns a report: the dataset-found
branch calls `query_lineage`, whose opening logging call raises
`AttributeError` on `request.entity_name` before any traversal, and the
exception propagates to the caller with the store unchanged.  (Only
unregistered names return, with the not-found dictionary.) -/
theorem impact_analysis_registered_raises (st : Store) (k : String)
    (hk : k ∈ dict_keys st.datasets) :
    get_dataset_impact_analysis st k =
      (st, Except.error
        "AttributeError: LineageQueryRequest has no attribute entity_name") := by
  unfold get_dataset_impact_analysis
  rw [if_pos hk]
  rfl

/-- Witness for `impact_analysis_registered_raises`: the Scenario C call. -/
theorem impact_analysis_registered_raises_witness :
    "production.customers" ∈ dict_keys scenario_store.datasets ∧
      get_dataset_impact_analysis scenario_store "production.customers" =
        (scenario_store, Except.error
          "AttributeError: LineageQueryRequest has no attribute entity_name") :=
  ⟨by decide,
   impact_analysis_registered_raises scenario_store "production.customers"
     (by decide)⟩

/-- **C1.** The claim says the Scenario A query
(`dataset_name="customer_analytics", direction="upstream", depth=2`)
returns a response with `total_datasets = 3` and `total_jobs = 1`; in the
source, `query_lineage` evaluates `request.entity_name` in its opening
logging call and raises `AttributeError` before computing anything — while
the remainder of the method (lines 287-340) would have computed exactly the
claimed totals `(3, 1)`. -/
theorem scenario_a_query_attribute_error :
    query_lineage scenario_store scenario_a_request =
        Except.error
          "AttributeError: LineageQueryRequest has no attribute entity_name" ∧
      (query_lineage_unlogged scenario_store scenario_a_request).toOption.map
        (fun r => (r.total_datasets, r.total_jobs)) = some (3, 1) :=
  ⟨rfl, by decide⟩
